import Mathlib

/-!
Shallow embedding of `src/src/components/LearningMaterialPopup.js`.

Strings of the JavaScript program are modelled as `List Char`. The two
regular expressions of `validateContactInfo`, the `trim` calls, the
submit handler `handleNextClick`, the selection toggle
`handleOptionClick`, the hover close-timer pair
`handleMouseLeave`/`handleMouseEnter`, and the closed-header rendering of
`MultiSelectDropdown` are embedded as executable Lean functions, and the
properties of the specification are settled against them.
-/

/-- Strings of the JavaScript program, modelled as lists of characters. -/
abbrev Str := List Char

/-- Characters matched by the JavaScript regex class `\s` (and removed at
both ends by `String.prototype.trim`): ASCII whitespace, NBSP, BOM and the
Unicode space separators. -/
def jsWhitespace (c : Char) : Bool :=
  c = ' ' || c = '\t' || c = '\n' || c = '\r' ||
  c = '\x0b' || c = '\x0c' ||
  c = '\u00a0' || c = '\u1680' ||
  ('\u2000' ≤ c && c ≤ '\u200a') ||
  c = '\u2028' || c = '\u2029' || c = '\u202f' ||
  c = '\u205f' || c = '\u3000' || c = '\ufeff'

/-- JavaScript `String.prototype.trim`: drop whitespace from both ends. -/
def jsTrim (s : Str) : Str :=
  ((s.dropWhile jsWhitespace).reverse.dropWhile jsWhitespace).reverse

/-- The regex class `\w`: ASCII letters, digits and underscore. -/
def wordChar (c : Char) : Bool :=
  c.isAlpha || c.isDigit || c = '_'

/-- The class `[\w-.]` of the local part of the email regex. -/
def emailLocalChar (c : Char) : Bool :=
  wordChar c || c = '-' || c = '.'

/-- The class `[\w-]` of the domain part of the email regex. -/
def emailDomainChar (c : Char) : Bool :=
  wordChar c || c = '-'

/-- The class `[a-z]` under the `i` flag: any ASCII letter. -/
def emailTldChar (c : Char) : Bool :=
  c.isAlpha

/-- The class `[\d\s\-().]` of the phone regex. -/
def phoneChar (c : Char) : Bool :=
  c.isDigit || jsWhitespace c || c = '-' || c = '(' || c = ')' || c = '.'

/-- Matcher for the email regex `/^[\w-.]+@[\w-]+\.[a-z]{2,}$/i` of
`validateContactInfo`. The literals `@` and `.` separating the three
parts belong to none of the preceding classes, so the greedy
`takeWhile`/`dropWhile` split is exact. -/
def emailMatch (s : Str) : Bool :=
  if (s.dropWhile emailLocalChar).head? = some '@' then
    if (((s.dropWhile emailLocalChar).tail).dropWhile emailDomainChar).head? = some '.' then
      !(s.takeWhile emailLocalChar).isEmpty &&
      !(((s.dropWhile emailLocalChar).tail).takeWhile emailDomainChar).isEmpty &&
      decide (2 ≤ ((((s.dropWhile emailLocalChar).tail).dropWhile emailDomainChar).tail).length) &&
      ((((s.dropWhile emailLocalChar).tail).dropWhile emailDomainChar).tail).all emailTldChar
    else false
  else false

/-- Matcher for the phone regex `/^\+?[\d\s\-().]{7,20}$/` of
`validateContactInfo`: an optional leading `+`, then 7 to 20 characters
of the class `[\d\s\-().]`. Since `+` is not in the class, consuming a
leading `+` is forced. -/
def phoneMatch (s : Str) : Bool :=
  if s.head? = some '+' then
    decide (7 ≤ s.tail.length) && decide (s.tail.length ≤ 20) && s.tail.all phoneChar
  else
    decide (7 ≤ s.length) && decide (s.length ≤ 20) && s.all phoneChar

/-- The function `validateContactInfo` of the source: the trimmed input
matches the email regex or the phone regex. -/
def validateContactInfo (info : Str) : Bool :=
  emailMatch (jsTrim info) || phoneMatch (jsTrim info)

/-- The toggle `handleOptionClick` of `MultiSelectDropdown`: a present
value is removed by `filter((v) => v !== value)`, an absent value is
appended; the new list is handed to the setter, the input list is not
mutated. -/
def handleOptionClick (selectedOptions : List Str) (value : Str) : List Str :=
  if value ∈ selectedOptions then
    selectedOptions.filter (· ≠ value)
  else
    selectedOptions ++ [value]

/-- The initial SelectionSet of either dropdown, `useState([])`. -/
def initialSelection : List Str := []

/-- The state of `LearningMaterialPopup` held in its four `useState`
hooks. -/
structure PopupState where
  selectedMaterials : List Str
  selectedPreferences : List Str
  contactInfo : Str
  error : Str
deriving DecidableEq, Repr

/-- The payload handed to the `onNext` callback by `handleNextClick`. -/
structure NextPayload where
  contactInfo : Str
  selectedMaterials : List Str
  selectedPreferences : List Str
deriving DecidableEq, Repr

/-- Error message of the empty-contact branch of `handleNextClick`. -/
def requiredMsg : Str := "Contact info is required.".data

/-- Error message of the invalid-format branch of `handleNextClick`. -/
def invalidMsg : Str := "Please enter a valid phone number or email address.".data

/-- The submit handler `handleNextClick`: on an empty trimmed contact it
sets the required-message error; on an invalid one it sets the
invalid-format error; otherwise it clears the error and calls `onNext`
with the trimmed contact and the two selection lists. The returned pair
is the updated state and the payload passed to `onNext` (`none` when
`onNext` is not invoked). -/
def handleNextClick (s : PopupState) : PopupState × Option NextPayload :=
  if (jsTrim s.contactInfo).isEmpty then
    ({ s with error := requiredMsg }, none)
  else if !validateContactInfo (jsTrim s.contactInfo) then
    ({ s with error := invalidMsg }, none)
  else
    ({ s with error := [] },
      some { contactInfo := jsTrim s.contactInfo,
             selectedMaterials := s.selectedMaterials,
             selectedPreferences := s.selectedPreferences })

/-- The delay, in milliseconds, passed to `setTimeout` in
`handleMouseLeave`. -/
def closeDelayMs : Nat := 300

/-- The timer-related state of one `MultiSelectDropdown` instance:
the identifiers and delays of the scheduled close timeouts that have
neither fired nor been cleared, the identifier held in
`closeTimeoutRef.current`, and a counter supplying fresh identifiers. -/
structure DropdownTimers where
  pendingCloses : List (Nat × Nat)
  closeTimeoutRef : Option Nat
  nextTimerId : Nat
deriving DecidableEq, Repr

/-- Timer state of a freshly mounted dropdown: no timeout scheduled,
`closeTimeoutRef.current` is `null`. -/
def initTimers : DropdownTimers :=
  { pendingCloses := [], closeTimeoutRef := none, nextTimerId := 0 }

/-- The handler `handleMouseLeave`: schedule a close after
`closeDelayMs` and store the new timeout id in the ref. The previously
stored timeout is not cleared; only the ref is overwritten. -/
def handleMouseLeave (s : DropdownTimers) : DropdownTimers :=
  { pendingCloses := s.pendingCloses ++ [(s.nextTimerId, closeDelayMs)],
    closeTimeoutRef := some s.nextTimerId,
    nextTimerId := s.nextTimerId + 1 }

/-- The handler `handleMouseEnter`: when the ref holds a timeout id,
clear that timeout and null the ref; otherwise do nothing. -/
def handleMouseEnter (s : DropdownTimers) : DropdownTimers :=
  match s.closeTimeoutRef with
  | some id =>
    { s with
      pendingCloses := s.pendingCloses.filter (fun p => p.1 ≠ id),
      closeTimeoutRef := none }
  | none => s

/-- An entry of the `options` prop: a display `text` and a `value`. -/
structure SelectOption where
  text : Str
  value : Str
deriving DecidableEq, Repr

/-- The contents of the closed dropdown header: a grey placeholder, or
one chip text per selected value. -/
inductive HeaderView where
  | placeholder : Str → HeaderView
  | chips : List Str → HeaderView
deriving DecidableEq, Repr

/-- The closed-header rendering of `MultiSelectDropdown`: with an empty
selection it shows `options[0].text` (`none` models the TypeError the
source throws there when `options` is empty); otherwise it maps every
selected value to a chip whose text is `option.text` of the first option
with that value, or the raw value when `options.find` yields no match. -/
def renderClosedHeader (options : List SelectOption) (selectedOptions : List Str) :
    Option HeaderView :=
  if selectedOptions.length = 0 then
    options.head?.map (fun opt => HeaderView.placeholder opt.text)
  else
    some (HeaderView.chips (selectedOptions.map (fun value =>
      match options.find? (fun opt => opt.value == value) with
      | some opt => opt.text
      | none => value)))

/-- The `materialOptions` list of `LearningMaterialPopup`. -/
def materialOptions : List SelectOption :=
  [{ text := "JavaScript".data, value := "javascript".data },
   { text := "React".data, value := "react".data }]

/-- The `preferenceOptions` list of `LearningMaterialPopup`. -/
def preferenceOptions : List SelectOption :=
  [{ text := "Online".data, value := "online".data },
   { text := "In-person".data, value := "inperson".data },
   { text := "Self-paced".data, value := "selfpaced".data }]

/-- Declarative semantics of the email regex, following the words of the
specification: the string splits as local part, `@`, domain part, `.`,
top-level part, with one or more characters of `[\w-.]`, one or more of
`[\w-]`, and two or more letters respectively. -/
def EmailSpec (s : Str) : Prop :=
  ∃ l d t : Str,
    s = l ++ '@' :: (d ++ '.' :: t) ∧
    l ≠ [] ∧ (∀ c ∈ l, emailLocalChar c = true) ∧
    d ≠ [] ∧ (∀ c ∈ d, emailDomainChar c = true) ∧
    2 ≤ t.length ∧ (∀ c ∈ t, emailTldChar c = true)

/-- Declarative semantics of a phone pattern over a character class
`cls`: an optional leading `+`, then 7 to 20 characters of `cls`. -/
def PhoneSpecWith (cls : Char → Bool) (s : Str) : Prop :=
  ∃ p r : Str,
    s = p ++ r ∧ (p = [] ∨ p = ['+']) ∧
    7 ≤ r.length ∧ r.length ≤ 20 ∧ ∀ c ∈ r, cls c = true

/-- The phone character class exactly as the specification words it:
digits, the space character, hyphen, parentheses and dot. -/
def claimPhoneChar (c : Char) : Bool :=
  c.isDigit || c = ' ' || c = '-' || c = '(' || c = ')' || c = '.'

/-- The validation predicate exactly as the specification words it: the
trimmed string matches the email pattern, or the phone pattern whose
class admits only the space character as whitespace. -/
def ClaimValidateSpec (s : Str) : Prop :=
  EmailSpec (jsTrim s) ∨ PhoneSpecWith claimPhoneChar (jsTrim s)

/-- Helper: `takeWhile` stops exactly at a separator that fails the
class when everything before it satisfies the class. -/
lemma takeWhile_middle (p : Char → Bool) (l : Str) (x : Char) (r : Str)
    (hl : ∀ c ∈ l, p c = true) (hx : p x = false) :
    (l ++ x :: r).takeWhile p = l := by
  rw [List.takeWhile_append_of_pos hl, List.takeWhile_cons_of_neg (by simp [hx]),
    List.append_nil]

/-- Helper: `dropWhile` drops exactly up to a separator that fails the
class when everything before it satisfies the class. -/
lemma dropWhile_middle (p : Char → Bool) (l : Str) (x : Char) (r : Str)
    (hl : ∀ c ∈ l, p c = true) (hx : p x = false) :
    (l ++ x :: r).dropWhile p = x :: r := by
  rw [List.dropWhile_append_of_pos hl, List.dropWhile_cons_of_neg (by simp [hx])]

/-- Helper: when `dropWhile p` leaves a list headed by `x`, the original
list splits as the kept prefix, `x`, and the tail, and `x` fails `p`. -/
lemma dropWhile_head_split (p : Char → Bool) (s : Str) (x : Char)
    (h : (s.dropWhile p).head? = some x) :
    s = s.takeWhile p ++ x :: (s.dropWhile p).tail ∧ p x = false := by
  rcases e : s.dropWhile p with _ | ⟨a, r⟩
  · rw [e] at h; cases h
  · rw [e] at h
    simp only [List.head?_cons, Option.some.injEq] at h
    subst h
    constructor
    · conv_lhs => rw [← List.takeWhile_append_dropWhile p s]
      rw [e, List.tail_cons]
    · have := List.head?_dropWhile_not p s
      rw [e] at this
      simpa using this

/-- The deterministic email matcher agrees with the declarative split
semantics of the regex `/^[\w-.]+@[\w-]+\.[a-z]{2,}$/i`. -/
lemma emailMatch_iff (s : Str) : emailMatch s = true ↔ EmailSpec s := by
  constructor
  · intro h
    unfold emailMatch at h
    by_cases h1 : (s.dropWhile emailLocalChar).head? = some '@'
    · rw [if_pos h1] at h
      obtain ⟨hs1, -⟩ := dropWhile_head_split emailLocalChar s '@' h1
      by_cases h2 :
          (((s.dropWhile emailLocalChar).tail).dropWhile emailDomainChar).head? = some '.'
      · rw [if_pos h2] at h
        obtain ⟨hs2, -⟩ :=
          dropWhile_head_split emailDomainChar ((s.dropWhile emailLocalChar).tail) '.' h2
        simp only [Bool.and_eq_true, Bool.not_eq_true', decide_eq_true_eq,
          List.all_eq_true] at h
        obtain ⟨⟨⟨hl, hd⟩, ht⟩, hall⟩ := h
        refine ⟨s.takeWhile emailLocalChar,
          ((s.dropWhile emailLocalChar).tail).takeWhile emailDomainChar,
          (((s.dropWhile emailLocalChar).tail).dropWhile emailDomainChar).tail,
          ?_, ?_, ?_, ?_, ?_, ht, hall⟩
        · conv_lhs => rw [hs1]
          conv_lhs => rw [hs2]
        · intro hnil; rw [hnil] at hl; exact absurd hl (by decide)
        · intro c hc; exact List.mem_takeWhile_imp hc
        · intro hnil; rw [hnil] at hd; exact absurd hd (by decide)
        · intro c hc; exact List.mem_takeWhile_imp hc
      · rw [if_neg h2] at h; exact absurd h (by simp)
    · rw [if_neg h1] at h; exact absurd h (by simp)
  · rintro ⟨l, d, t, rfl, hl, hlc, hd, hdc, ht, htc⟩
    unfold emailMatch
    have e1 : (l ++ '@' :: (d ++ '.' :: t)).dropWhile emailLocalChar = '@' :: (d ++ '.' :: t) :=
      dropWhile_middle _ _ _ _ hlc (by decide)
    have e2 : (l ++ '@' :: (d ++ '.' :: t)).takeWhile emailLocalChar = l :=
      takeWhile_middle _ _ _ _ hlc (by decide)
    have e3 : (d ++ '.' :: t).dropWhile emailDomainChar = '.' :: t :=
      dropWhile_middle _ _ _ _ hdc (by decide)
    have e4 : (d ++ '.' :: t).takeWhile emailDomainChar = d :=
      takeWhile_middle _ _ _ _ hdc (by decide)
    rw [e1]
    simp only [List.head?_cons, List.tail_cons, e3, e4, e2, if_true]
    simp only [Bool.and_eq_true, Bool.not_eq_true', decide_eq_true_eq, List.all_eq_true,
      List.isEmpty_iff]
    refine ⟨⟨⟨?_, ?_⟩, ht⟩, htc⟩
    · simpa using hl
    · simpa using hd

/-- The deterministic phone matcher agrees with the declarative split
semantics of the regex `/^\+?[\d\s\-().]{7,20}$/`. -/
lemma phoneMatch_iff (s : Str) : phoneMatch s = true ↔ PhoneSpecWith phoneChar s := by
  constructor
  · intro h
    unfold phoneMatch at h
    by_cases h1 : s.head? = some '+'
    · rw [if_pos h1] at h
      rcases s with _ | ⟨a, s'⟩
      · cases h1
      · simp only [List.head?_cons, Option.some.injEq] at h1
        subst h1
        simp only [List.tail_cons, Bool.and_eq_true, decide_eq_true_eq,
          List.all_eq_true] at h
        exact ⟨['+'], s', rfl, Or.inr rfl, h.1.1, h.1.2, h.2⟩
    · rw [if_neg h1] at h
      simp only [Bool.and_eq_true, decide_eq_true_eq, List.all_eq_true] at h
      exact ⟨[], s, rfl, Or.inl rfl, h.1.1, h.1.2, h.2⟩
  · rintro ⟨p, r, rfl, hp | hp, h7, h20, hall⟩
    · subst hp
      unfold phoneMatch
      have hne : (([] : Str) ++ r).head? ≠ some '+' := by
        rcases r with _ | ⟨c, r'⟩
        · simp
        · simp only [List.nil_append, List.head?_cons]
          intro hc
          have hc' : c = '+' := Option.some.inj hc
          subst hc'
          exact absurd (hall '+' (by simp)) (by decide)
      rw [if_neg hne]
      simp only [List.nil_append, Bool.and_eq_true, decide_eq_true_eq, List.all_eq_true]
      exact ⟨⟨h7, h20⟩, hall⟩
    · subst hp
      unfold phoneMatch
      rw [List.singleton_append, if_pos (by simp)]
      simp only [List.tail_cons, Bool.and_eq_true, decide_eq_true_eq, List.all_eq_true]
      exact ⟨⟨h7, h20⟩, hall⟩

/-- A seven-character input whose fourth character is a tab: every
character is a digit or matches the regex class `\s`, but the tab is not
the space character. -/
def tabPhoneInput : Str := ['1', '2', '3', '\t', '4', '5', '6']

/-- C1, counterexample: the code accepts `"123\t456"`, but the pattern
worded in the specification, whose phone class contains only the space
character among whitespace, rejects it, so the claimed equivalence fails
at this input. -/
theorem contact_validation_space_only_counterexample :
    validateContactInfo tabPhoneInput = true ∧ ¬ ClaimValidateSpec tabPhoneInput := by
  refine ⟨by decide, ?_⟩
  have htrim : jsTrim tabPhoneInput = tabPhoneInput := by decide
  rintro (he | hp)
  · rw [htrim] at he
    obtain ⟨l, d, t, hs, -, -, -, -, -, -⟩ := he
    have hmem : '@' ∈ tabPhoneInput := by rw [hs]; simp
    exact absurd hmem (by decide)
  · rw [htrim] at hp
    obtain ⟨p, r, hs, hp01, -, -, hall⟩ := hp
    rcases hp01 with rfl | rfl
    · rw [List.nil_append] at hs
      subst hs
      exact absurd (hall '\t' (by decide)) (by decide)
    · rw [List.singleton_append] at hs
      simp only [tabPhoneInput] at hs
      injection hs with h1 h2
      exact absurd h1 (by decide)

/-- C1, amended: for every string S, `validateContactInfo` returns true
iff the trimmed S matches the email pattern or the phone pattern, where
the phone character class admits every JavaScript whitespace character
(the regex class `\s`: space, tab, line breaks and the Unicode spaces),
not only the space character. -/
theorem contact_validation_amended (s : Str) :
    validateContactInfo s = true ↔
      EmailSpec (jsTrim s) ∨ PhoneSpecWith phoneChar (jsTrim s) := by
  unfold validateContactInfo
  rw [Bool.or_eq_true, emailMatch_iff, phoneMatch_iff]

/-- C2: when the trimmed contact passes validation, `handleNextClick`
clears the error and invokes `onNext` exactly once with the trimmed
contact and the two selection lists exactly as held in the state. -/
theorem submit_valid_contact (s : PopupState)
    (h : validateContactInfo (jsTrim s.contactInfo) = true) :
    handleNextClick s =
      ({ s with error := [] },
        some { contactInfo := jsTrim s.contactInfo,
               selectedMaterials := s.selectedMaterials,
               selectedPreferences := s.selectedPreferences }) := by
  have hne : (jsTrim s.contactInfo).isEmpty = false := by
    rcases e : jsTrim s.contactInfo with _ | ⟨c, cs⟩
    · rw [e] at h; exact absurd h (by decide)
    · rfl
  simp [handleNextClick, hne, h]

/-- The popup state of the C2 scenario: contact `"user@example.com"`,
both selection sets empty. -/
def popupUserExample : PopupState :=
  { selectedMaterials := [], selectedPreferences := [],
    contactInfo := "user@example.com".data, error := [] }

/-- C2, witness: submitting `"user@example.com"` with no selections
succeeds and hands `onNext` empty selection lists. -/
theorem submit_valid_contact_witness :
    validateContactInfo (jsTrim popupUserExample.contactInfo) = true ∧
    handleNextClick popupUserExample =
      ({ popupUserExample with error := [] },
        some { contactInfo := jsTrim popupUserExample.contactInfo,
               selectedMaterials := [], selectedPreferences := [] }) :=
  ⟨by decide, submit_valid_contact popupUserExample (by decide)⟩

/-- C3: when the trimmed contact is empty, `handleNextClick` sets the
required-contact error, does not invoke `onNext`, and leaves the contact
and both selection lists unchanged. -/
theorem submit_empty_contact (s : PopupState) (h : jsTrim s.contactInfo = []) :
    handleNextClick s = ({ s with error := requiredMsg }, none) ∧
    (handleNextClick s).1.contactInfo = s.contactInfo ∧
    (handleNextClick s).1.selectedMaterials = s.selectedMaterials ∧
    (handleNextClick s).1.selectedPreferences = s.selectedPreferences := by
  have he : (jsTrim s.contactInfo).isEmpty = true := by rw [h]; rfl
  refine ⟨?_, ?_, ?_, ?_⟩ <;> simp [handleNextClick, he]

/-- The popup state of the C3 scenario: whitespace-only contact. -/
def popupEmptyContact : PopupState :=
  { selectedMaterials := ["javascript".data], selectedPreferences := [],
    contactInfo := "   ".data, error := [] }

/-- C3, witness: submitting a whitespace-only contact yields the
required-contact message and no callback. -/
theorem submit_empty_contact_witness :
    jsTrim popupEmptyContact.contactInfo = [] ∧
    handleNextClick popupEmptyContact = ({ popupEmptyContact with error := requiredMsg }, none) :=
  ⟨by decide, (submit_empty_contact popupEmptyContact (by decide)).1⟩

/-- C4: when the trimmed contact is non-empty but fails validation,
`handleNextClick` sets the invalid-format error and does not invoke
`onNext`. -/
theorem submit_invalid_contact (s : PopupState) (h1 : jsTrim s.contactInfo ≠ [])
    (h2 : validateContactInfo (jsTrim s.contactInfo) = false) :
    handleNextClick s = ({ s with error := invalidMsg }, none) := by
  have hne : (jsTrim s.contactInfo).isEmpty = false := by
    rcases e : jsTrim s.contactInfo with _ | ⟨c, cs⟩
    · exact absurd e h1
    · rfl
  simp [handleNextClick, hne, h2]

/-- The popup state of the C4 scenario: contact `"not-an-email"`. -/
def popupNotAnEmail : PopupState :=
  { selectedMaterials := [], selectedPreferences := [],
    contactInfo := "not-an-email".data, error := [] }

/-- C4, witness: submitting `"not-an-email"` yields the invalid-format
message and no callback. -/
theorem submit_invalid_contact_witness :
    jsTrim popupNotAnEmail.contactInfo ≠ [] ∧
    validateContactInfo (jsTrim popupNotAnEmail.contactInfo) = false ∧
    handleNextClick popupNotAnEmail = ({ popupNotAnEmail with error := invalidMsg }, none) :=
  ⟨by decide, by decide, submit_invalid_contact popupNotAnEmail (by decide) (by decide)⟩

/-- A string of seven hyphens: it contains no digit at all. -/
def sevenHyphens : Str := ['-', '-', '-', '-', '-', '-', '-']

/-- C10: the phone class does not require a digit, so the validation
accepts the digit-free string of seven hyphens. -/
theorem validation_accepts_digit_free_input :
    validateContactInfo sevenHyphens = true ∧
    sevenHyphens.all (fun c => !c.isDigit) = true := by
  decide

/-- Helper: toggling a value that sits at a unique position removes
exactly that occurrence and keeps everything else in order. -/
lemma toggle_of_split (l₁ l₂ : List Str) (v : Str) (h : (l₁ ++ v :: l₂).Nodup) :
    handleOptionClick (l₁ ++ v :: l₂) v = l₁ ++ l₂ := by
  obtain ⟨h₁, h₂, hdisj⟩ := List.nodup_append.mp h
  have hv1 : v ∉ l₁ := fun hm => hdisj hm (by simp)
  have hv2 : v ∉ l₂ := (List.nodup_cons.mp h₂).1
  unfold handleOptionClick
  rw [if_pos (by simp), List.filter_append]
  have f1 : l₁.filter (· ≠ v) = l₁ := by
    refine List.filter_eq_self.mpr fun a ha => ?_
    simp only [decide_eq_true_eq]
    exact fun e => hv1 (e ▸ ha)
  have f2 : l₂.filter (· ≠ v) = l₂ := by
    refine List.filter_eq_self.mpr fun a ha => ?_
    simp only [decide_eq_true_eq]
    exact fun e => hv2 (e ▸ ha)
  rw [f1, List.filter_cons_of_neg (by simp), f2]

/-- Helper: toggling an absent value appends it. -/
lemma toggle_of_not_mem (sel : List Str) (v : Str) (h : v ∉ sel) :
    handleOptionClick sel v = sel ++ [v] := by
  unfold handleOptionClick
  rw [if_neg h]

/-- Helper: toggling preserves freedom from duplicates. -/
lemma toggle_preserves_nodup (sel : List Str) (v : Str) (h : sel.Nodup) :
    (handleOptionClick sel v).Nodup := by
  unfold handleOptionClick
  by_cases hv : v ∈ sel
  · rw [if_pos hv]
    exact h.filter _
  · rw [if_neg hv]
    refine List.nodup_append.mpr ⟨h, List.nodup_singleton v, ?_⟩
    intro a ha hav
    rw [List.mem_singleton] at hav
    subst hav
    exact hv ha

/-- C5: on a duplicate-free SelectionSet, toggling a present value
removes exactly that element and preserves the relative order of the
rest, and toggling an absent value appends it as the last element. The
embedding returns the new list handed to the setter; the input list is
not mutated. -/
theorem toggle_option_spec (sel : List Str) (v : Str) (h : sel.Nodup) :
    (∀ l₁ l₂, sel = l₁ ++ v :: l₂ → handleOptionClick sel v = l₁ ++ l₂) ∧
    (v ∉ sel → handleOptionClick sel v = sel ++ [v]) := by
  constructor
  · rintro l₁ l₂ rfl
    exact toggle_of_split l₁ l₂ v h
  · exact toggle_of_not_mem sel v

/-- C5, witness: removing `"a"` from `["a", "b"]` leaves `["b"]`, and
toggling the absent `"c"` onto `["b"]` appends it. -/
theorem toggle_option_spec_witness :
    ([['a'], ['b']] : List Str).Nodup ∧
    handleOptionClick [['a'], ['b']] ['a'] = [['b']] ∧
    handleOptionClick [['b']] ['c'] = [['b'], ['c']] :=
  ⟨by decide,
   (toggle_option_spec [['a'], ['b']] ['a'] (by decide)).1 [] [['b']] rfl,
   (toggle_option_spec [['b']] ['c'] (by decide)).2 (by decide)⟩

/-- C6, counterexample: toggling `"a"` twice on `["a", "b"]` yields
`["b", "a"]`, not the original order `["a", "b"]`. -/
theorem toggle_twice_counterexample :
    handleOptionClick (handleOptionClick [['a'], ['b']] ['a']) ['a'] ≠ [['a'], ['b']] := by
  decide

/-- C6, amended: on a duplicate-free SelectionSet, toggling the same
value twice returns a set with the original contents (a permutation);
the original order is restored exactly when the value was absent, while
a present value is moved to the end. -/
theorem toggle_twice_amended (sel : List Str) (v : Str) (h : sel.Nodup) :
    (handleOptionClick (handleOptionClick sel v) v).Perm sel ∧
    (v ∉ sel → handleOptionClick (handleOptionClick sel v) v = sel) ∧
    (∀ l₁ l₂, sel = l₁ ++ v :: l₂ →
      handleOptionClick (handleOptionClick sel v) v = (l₁ ++ l₂) ++ [v]) := by
  have not_mem_case : v ∉ sel → handleOptionClick (handleOptionClick sel v) v = sel := by
    intro hv
    rw [toggle_of_not_mem sel v hv]
    have hnd : (sel ++ [v]).Nodup := by
      refine List.nodup_append.mpr ⟨h, List.nodup_singleton v, ?_⟩
      intro a ha hav
      rw [List.mem_singleton] at hav
      subst hav
      exact hv ha
    simpa using toggle_of_split sel [] v (by simpa using hnd)
  have mem_case : ∀ l₁ l₂, sel = l₁ ++ v :: l₂ →
      handleOptionClick (handleOptionClick sel v) v = (l₁ ++ l₂) ++ [v] := by
    rintro l₁ l₂ rfl
    obtain ⟨h₁, h₂, hdisj⟩ := List.nodup_append.mp h
    have hv1 : v ∉ l₁ := fun hm => hdisj hm (by simp)
    have hv2 : v ∉ l₂ := (List.nodup_cons.mp h₂).1
    rw [toggle_of_split l₁ l₂ v h]
    exact toggle_of_not_mem (l₁ ++ l₂) v (by simp [hv1, hv2])
  refine ⟨?_, not_mem_case, mem_case⟩
  by_cases hv : v ∈ sel
  · obtain ⟨l₁, l₂, rfl⟩ := List.append_of_mem hv
    rw [mem_case l₁ l₂ rfl]
    exact (List.perm_append_singleton v (l₁ ++ l₂)).trans List.perm_middle.symm
  · rw [not_mem_case hv]

/-- C6, amended, witness: toggling the present `"a"` twice on
`["a", "b"]` permutes it to `["b", "a"]`, and toggling the absent
`"c"` twice on `["b"]` restores `["b"]`. -/
theorem toggle_twice_amended_witness :
    ([['a'], ['b']] : List Str).Nodup ∧
    handleOptionClick (handleOptionClick [['a'], ['b']] ['a']) ['a'] = [['b'], ['a']] ∧
    handleOptionClick (handleOptionClick [['b']] ['c']) ['c'] = [['b']] :=
  ⟨by decide,
   (toggle_twice_amended [['a'], ['b']] ['a'] (by decide)).2.2 [] [['b']] rfl,
   (toggle_twice_amended [['b']] ['c'] (by decide)).2.1 (by decide)⟩

/-- C7: every SelectionSet reachable from the initial empty state by a
sequence of toggles is free of duplicates. -/
theorem selection_nodup_invariant (vs : List Str) :
    (vs.foldl handleOptionClick initialSelection).Nodup := by
  suffices h : ∀ init : List Str, init.Nodup → (vs.foldl handleOptionClick init).Nodup from
    h initialSelection List.nodup_nil
  induction vs with
  | nil =>
    intro init h
    simpa using h
  | cons v vs ih =>
    intro init h
    simp only [List.foldl_cons]
    exact ih _ (toggle_preserves_nodup init v h)

/-- C8, counterexample: after leave, leave, enter from the initial
timer state, the close scheduled by the first leave (id 0, 300 ms) is
still pending, refuting the claim that no close is pending after that
sequence. -/
theorem close_timer_stacking_counterexample :
    (handleMouseEnter (handleMouseLeave (handleMouseLeave initTimers))).pendingCloses =
      [(0, closeDelayMs)] ∧
    (handleMouseEnter (handleMouseLeave (handleMouseLeave initTimers))).pendingCloses ≠ [] := by
  decide

/-- C8, amended: entering the widget cancels exactly the pending close
tracked by the ref and nulls the ref; leaving schedules one additional
close after the fixed 300 ms delay and overwrites the ref without
cancelling earlier pending closes, so repeated leaves stack and after a
leave-leave-enter sequence the close of the first leave is still
pending. -/
theorem close_timer_amended :
    (∀ s : DropdownTimers, (handleMouseEnter s).closeTimeoutRef = none) ∧
    (∀ (s : DropdownTimers) (i : Nat) (q : Nat × Nat), s.closeTimeoutRef = some i →
      (q ∈ (handleMouseEnter s).pendingCloses ↔ q ∈ s.pendingCloses ∧ q.1 ≠ i)) ∧
    (∀ s : DropdownTimers,
      (handleMouseLeave s).pendingCloses = s.pendingCloses ++ [(s.nextTimerId, closeDelayMs)] ∧
      (handleMouseLeave s).closeTimeoutRef = some s.nextTimerId) ∧
    closeDelayMs = 300 ∧
    (handleMouseEnter (handleMouseLeave (handleMouseLeave initTimers))).pendingCloses =
      [(0, closeDelayMs)] := by
  refine ⟨?_, ?_, fun s => ⟨rfl, rfl⟩, rfl, by decide⟩
  · intro s
    unfold handleMouseEnter
    rcases s with ⟨p, _ | i, n⟩
    · rfl
    · rfl
  · intro s i q href
    rcases s with ⟨p, r, n⟩
    simp only at href
    subst href
    simp [handleMouseEnter, List.mem_filter]

/-- C8, amended, witness: entering with the ref on timeout 4 cancels
exactly that pending close and keeps the one with id 3. -/
theorem close_timer_amended_witness :
    ((3, 300) ∈ (handleMouseEnter ⟨[(3, 300), (4, 300)], some 4, 5⟩).pendingCloses ↔
      (3, 300) ∈ ([(3, 300), (4, 300)] : List (Nat × Nat)) ∧ 3 ≠ 4) :=
  close_timer_amended.2.1 ⟨[(3, 300), (4, 300)], some 4, 5⟩ 4 (3, 300) rfl

/-- C9: with a non-empty Option list, the closed header shows the text
of the first Option as a placeholder when the SelectionSet is empty, and
otherwise one chip per selected value in selection order, each resolved
against the Option list by value with the raw value as fallback. -/
theorem closed_header_rendering (options : List SelectOption) (sel : List Str)
    (hopts : options ≠ []) :
    (sel = [] → ∃ o, options.head? = some o ∧
      renderClosedHeader options sel = some (HeaderView.placeholder o.text)) ∧
    (sel ≠ [] → renderClosedHeader options sel =
      some (HeaderView.chips (sel.map (fun v =>
        ((options.find? (fun o => o.value == v)).map SelectOption.text).getD v)))) := by
  constructor
  · rintro rfl
    rcases options with _ | ⟨o, os⟩
    · exact absurd rfl hopts
    · exact ⟨o, rfl, rfl⟩
  · intro hne
    unfold renderClosedHeader
    rw [if_neg (by simpa [List.length_eq_zero] using hne)]
    refine congrArg some (congrArg HeaderView.chips ?_)
    refine List.map_congr_left fun v hv => ?_
    rcases hf : options.find? (fun o => o.value == v) with _ | o <;> simp [hf]

/-- C9, witness: on the material options of the source, the empty selection
shows the `JavaScript` placeholder, and the selection
`["react", "unknown"]` renders the chip texts `["React", "unknown"]`,
the second falling back to the raw value. -/
theorem closed_header_rendering_witness :
    materialOptions ≠ [] ∧
    renderClosedHeader materialOptions [] =
      some (HeaderView.placeholder "JavaScript".data) ∧
    renderClosedHeader materialOptions ["react".data, "unknown".data] =
      some (HeaderView.chips ["React".data, "unknown".data]) := by
  refine ⟨by decide, ?_, ?_⟩
  · obtain ⟨o, ho, hr⟩ := (closed_header_rendering materialOptions [] (by decide)).1 rfl
    have he : ({ text := "JavaScript".data, value := "javascript".data } : SelectOption) = o := by
      simpa [materialOptions] using ho
    rw [← he] at hr
    exact hr
  · have h := (closed_header_rendering materialOptions ["react".data, "unknown".data]
      (by decide)).2 (by decide)
    rw [h]
    decide

/-- The phone number of the specification scenario passes validation. -/
theorem phone_example_accepted : validateContactInfo "+1 (555) 123-4567".data = true := by
  decide
